import Mathlib

/-!
Verification development for the Noahjo shop server (server.js, file-backed
JSON DB variant).  The definitions below are a shallow embedding of the
handlers that the verified claims are about: the Stripe webhook endpoint
(`app.post('/webhook')`), the synchronous message-history endpoint
(`app.get('/api/orders/:id/messages')`), and the socket handlers
`joinOrder` and `message`.

Conventions of the embedding:
* JS strict equality `===` between order-id values (which may be strings
  or numbers) is modelled by equality on the sum type `JVal`; the JS
  coercion `String(x)` is `jsToString`.
* `new Date().toISOString()` timestamps are modelled as `Nat` clock
  values; the comparator `new Date(a) - new Date(b)` used by
  `Array.prototype.sort` becomes the `≤` order on those values, and the
  (stable, per the ECMAScript spec) sort becomes a stable insertion sort.
* `generateId()` results and clock readings are threaded in as explicit
  arguments, since they are the handlers' only sources of nondeterminism.
* JS `null`/absent fields are modelled with `Option`; the JS truthiness
  coercion `x || null` maps `0` and `""` to `none`.
* The snapshot also holds `users`, `products` and `reviews` collections;
  none of the modelled handlers ever reads or writes them, so the `DB`
  record carries only `orders` and `messages`.
-/

namespace NoahjoShop

/-- A JS value that can appear as an order id: string or number. -/
inductive JVal where
  | jstr (s : String)
  | jnum (n : Int)
deriving DecidableEq, Repr

/-- The JS coercion `String(x)` for the values of `JVal`. -/
def jsToString : JVal → String
  | .jstr s => s
  | .jnum n => toString n

/-- The verified principal attached to a request or socket
(`req.user` / `socket.user`, from the JWT payload). -/
structure Principal where
  id : Int
  is_admin : Bool
deriving DecidableEq, Repr

/-- An order record as built by the webhook handler (server.js:166-175).
`created_at` is a clock value, `stripe_session_id` may be absent on
records not created by the webhook. -/
structure Order where
  id : JVal
  stripe_session_id : Option String
  user_id : Option Int
  user_email : Option String
  amount_total : Option Int
  currency : Option String
  status : String
  created_at : Nat
deriving DecidableEq, Repr

/-- A chat message record as built by the `message` socket handler
(server.js:414). `order_id` stores the raw `orderId` payload value. -/
structure Message where
  id : String
  order_id : JVal
  sender_id : Int
  sender_role : String
  text : String
  created_at : Nat
deriving DecidableEq, Repr

/-- The collections of the persisted snapshot that the modelled handlers
touch (`db.data.orders`, `db.data.messages`). -/
structure DB where
  orders : List Order
  messages : List Message
deriving DecidableEq, Repr

/-- The loose order lookup used identically at server.js:357, 396 and 410:
`db.data.orders.find(o => o.id === orderId || String(o.id) === String(orderId))`. -/
def findOrder (db : DB) (orderId : JVal) : Option Order :=
  db.orders.find? (fun o => o.id == orderId || jsToString o.id == jsToString orderId)

/-- Stable insertion of a message into a list sorted by `created_at`:
the inserted element goes before the first strictly-later-or-equal-keyed
element coming from later list positions, matching the stability
guarantee of `Array.prototype.sort`. -/
def insertByTime (x : Message) : List Message → List Message
  | [] => [x]
  | y :: ys => if x.created_at ≤ y.created_at then x :: y :: ys else y :: insertByTime x ys

/-- The sort `.sort((a,b) => new Date(a.created_at) - new Date(b.created_at))`
applied to message lists (server.js:360, 401): sorted ascending by
`created_at`, ties kept in original (insertion) order. -/
def sortByTime : List Message → List Message
  | [] => []
  | x :: xs => insertByTime x (sortByTime xs)

/-- Outcome of the history-fetch endpoint and of the `joinOrder` ack:
404 / 403 / ok-with-history. -/
inductive FetchResult where
  | orderNotFound
  | notAuthorized
  | ok (messages : List Message)
deriving DecidableEq, Repr

/-- `GET /api/orders/:id/messages` (server.js:354-362): loose order lookup,
404 when absent, 403 unless the requester owns the order or is admin,
otherwise the strictly-filtered message list sorted by `created_at`. -/
def historyFetch (db : DB) (orderId : JVal) (u : Principal) : FetchResult :=
  match findOrder db orderId with
  | none => .orderNotFound
  | some order =>
    if order.user_id == some u.id || u.is_admin then
      .ok (sortByTime (db.messages.filter (fun m => m.order_id == orderId)))
    else
      .notAuthorized

/-- The `joinOrder` socket handler's callback value (server.js:393-404):
loose order lookup, `Order not found` / `Not authorized` errors, else
`ok` with the strictly-filtered, time-sorted history. -/
def joinOrderAck (db : DB) (orderId : JVal) (u : Principal) : FetchResult :=
  match findOrder db orderId with
  | none => .orderNotFound
  | some order =>
    if order.user_id == some u.id || u.is_admin then
      .ok (sortByTime (db.messages.filter (fun m => m.order_id == orderId)))
    else
      .notAuthorized

/-- Outcome of the `message` socket handler's callback. -/
inductive SendResult where
  | orderNotFound
  | notAuthorized
  | ok (msg : Message)
deriving DecidableEq, Repr

/-- The `message` socket handler (server.js:406-424): loose order lookup,
authorization, then unconditional construction and append of the message
(the handler performs no validation of `text`). `newId` is the
`generateId()` result and `now` the clock reading. -/
def sendMessage (db : DB) (u : Principal) (orderId : JVal) (text : String)
    (newId : String) (now : Nat) : DB × SendResult :=
  match findOrder db orderId with
  | none => (db, .orderNotFound)
  | some order =>
    if order.user_id == some u.id || u.is_admin then
      let msg : Message :=
        { id := newId, order_id := orderId, sender_id := u.id
          sender_role := if u.is_admin then "admin" else "user"
          text := text, created_at := now }
      ({ db with messages := db.messages ++ [msg] }, .ok msg)
    else
      (db, .notAuthorized)

/-! ## Webhook ingestion (server.js:140-183) -/

/-- The fields of a checkout session object (`event.data.object`) that the
webhook handler reads.  `metadata_user_id` is `session.metadata.user_id`
(absent when `session.metadata` is falsy or lacks the key);
`customer_details` is `some e` when `session.customer_details` is truthy,
where `e` is its (possibly null, i.e. `none`) `email` field. -/
structure Session where
  id : String
  metadata_user_id : Option String
  amount_total : Option Int
  currency : Option String
  customer_details : Option (Option String)
  customer_email : Option String
deriving DecidableEq, Repr

/-- A parsed webhook event: its `type` string and `data.object` session. -/
structure Event where
  type : String
  session : Session
deriving DecidableEq, Repr

/-- `session.metadata && session.metadata.user_id ? Number(session.metadata.user_id) : null`
(server.js:158); the `Number(...)` parse of the id string is modelled by
`String.toInt?`. An absent or empty (falsy) value yields `null`. -/
def extractUserId (s : Session) : Option Int :=
  match s.metadata_user_id with
  | some v => if v == "" then none else v.toInt?
  | none => none

/-- `session.amount_total || null` (server.js:159): a falsy amount
(the number 0, or an absent field) becomes `null`. -/
def extractAmountTotal (s : Session) : Option Int :=
  match s.amount_total with
  | some v => if v == 0 then none else some v
  | none => none

/-- `session.currency || null` (server.js:160): a falsy currency
(the empty string, or an absent field) becomes `null`. -/
def extractCurrency (s : Session) : Option String :=
  match s.currency with
  | some v => if v == "" then none else some v
  | none => none

/-- `session.customer_details ? session.customer_details.email : (session.customer_email || null)`
(server.js:161). -/
def extractEmail (s : Session) : Option String :=
  match s.customer_details with
  | some e => e
  | none =>
    match s.customer_email with
    | some v => if v == "" then none else some v
    | none => none

/-- The order record the webhook creates (server.js:166-175): always
`status = 'paid'`, `stripe_session_id = session.id`. -/
def mkOrder (s : Session) (newId : String) (now : Nat) : Order :=
  { id := .jstr newId
    stripe_session_id := some s.id
    user_id := extractUserId s
    user_email := extractEmail s
    amount_total := extractAmountTotal s
    currency := extractCurrency s
    status := "paid"
    created_at := now }

/-- The state-changing part of the webhook handler (server.js:155-180):
on a checkout-completion event, look up an existing order by
`stripe_session_id`; if absent, append a new paid order and emit an
`order:created` event to the `admins` room (returned as `some order`);
otherwise do nothing.  Non-completion event types change nothing. -/
def processEvent (e : Event) (db : DB) (newId : String) (now : Nat) :
    DB × Option Order :=
  if e.type == "checkout.session.completed" || e.type == "checkout.session.async_payment_succeeded" then
    match db.orders.find? (fun o => o.stripe_session_id == some e.session.id) with
    | some _ => (db, none)
    | none =>
      let newOrder := mkOrder e.session newId now
      ({ db with orders := db.orders ++ [newOrder] }, some newOrder)
  else
    (db, none)

/-- The HTTP response of the webhook endpoint. -/
inductive WebhookResponse where
  /-- 400 `Stripe not configured` (server.js:141). -/
  | stripeNotConfigured
  /-- 400 `Webhook Error: ...` from the catch block (server.js:150-153). -/
  | webhookError
  /-- `res.json` success acknowledgment `received: true` (server.js:182). -/
  | received
deriving DecidableEq, Repr

/-- Webhook-relevant configuration: whether `STRIPE_SECRET_KEY` is set
(so the `stripe` client exists) and the optional `STRIPE_WEBHOOK_SECRET`. -/
structure Config where
  stripeConfigured : Bool
  webhookSecret : Option String
deriving DecidableEq, Repr

/-- The verification/parsing stage (server.js:144-153): with a configured
webhook secret the event comes from `stripe.webhooks.constructEvent`
(modelled by the abstract `constructEvent`, `none` = the library threw);
without one the raw body is parsed directly (`parseJson`, `none` = a
`JSON.parse` throw). -/
def parseStage (cfg : Config)
    (constructEvent : String → String → String → Option Event)
    (parseJson : String → Option Event) (body sig : String) : Option Event :=
  match cfg.webhookSecret with
  | some secret => constructEvent body sig secret
  | none => parseJson body

/-- The whole `POST /webhook` handler (server.js:140-183): reject when
Stripe is unconfigured, run the verification/parsing stage, reject with
`webhookError` on its failure, otherwise process the event and always
acknowledge with `received`.  Returns the new snapshot, the optional
admin notification, and the response. -/
def handleWebhook (cfg : Config)
    (constructEvent : String → String → String → Option Event)
    (parseJson : String → Option Event) (body sig : String)
    (db : DB) (newId : String) (now : Nat) :
    DB × Option Order × WebhookResponse :=
  if cfg.stripeConfigured then
    match parseStage cfg constructEvent parseJson body sig with
    | none => (db, none, .webhookError)
    | some e =>
      let (db', notif) := processEvent e db newId now
      (db', notif, .received)
  else
    (db, none, .stripeNotConfigured)

/-- One webhook delivery of event `e` with a supplied id/clock pair. -/
def deliver (e : Event) (db : DB) (sup : String × Nat) : DB × Option Order :=
  processEvent e db sup.1 sup.2

/-- Sequential redelivery of the same event, one id/clock supply per
delivery; collects the admin notifications actually emitted. -/
def deliverAll (e : Event) (sups : List (String × Nat)) (db : DB) :
    DB × List Order :=
  match sups with
  | [] => (db, [])
  | sup :: rest =>
    let step := deliver e db sup
    let next := deliverAll e rest step.1
    (next.1, (match step.2 with | some o => [o] | none => []) ++ next.2)

/-- Orders in `db` whose `stripe_session_id` strictly equals `sid`. -/
def ordersFor (db : DB) (sid : String) : List Order :=
  db.orders.filter (fun o => o.stripe_session_id == some sid)

/-! ## Realtime rooms and broadcast (server.js:389-425)

The socket layer: a connection that joined `order:${orderId}` is a member
of that room; `io.to(room).emit('message', msg)` appends the message to
every current member's stream (the sender included, since the sender's
socket is in the room). -/

/-- The room name `` `order:${orderId}` `` (server.js:399, 417). -/
def roomName (orderId : JVal) : String := "order:" ++ jsToString orderId

/-- A connected socket that has joined a room: its principal, the room it
is in, and the stream of messages it has received from `io.to(room)` in
arrival order. -/
structure Member where
  user : Principal
  room : String
  inbox : List Message
deriving DecidableEq, Repr

/-- The realtime system state: the shared snapshot and the connected room
members. -/
structure Sys where
  db : DB
  members : List Member
deriving DecidableEq, Repr

/-- A `message` socket event: the sender's principal, the payload, and
the handler's `generateId()` / clock supplies. -/
structure SendReq where
  sender : Principal
  orderId : JVal
  text : String
  newId : String
  now : Nat
deriving DecidableEq, Repr

/-- The message record the handler builds for a request (server.js:414). -/
def mkMessage (r : SendReq) : Message :=
  { id := r.newId, order_id := r.orderId, sender_id := r.sender.id
    sender_role := if r.sender.is_admin then "admin" else "user"
    text := r.text, created_at := r.now }

/-- One `message` event processed to completion: persist via
`sendMessage`, then `io.to(room).emit` delivers the new message to every
member of `order:${orderId}` (server.js:415-418). -/
def sendStep (st : Sys) (r : SendReq) : Sys × SendResult :=
  let step := sendMessage st.db r.sender r.orderId r.text r.newId r.now
  match step.2 with
  | .ok m =>
    ({ db := step.1
       members := st.members.map (fun mem =>
         if mem.room == roomName r.orderId then
           { mem with inbox := mem.inbox ++ [m] }
         else mem) }, .ok m)
  | res => ({ st with db := step.1 }, res)

/-- A sequence of `message` events processed one after the other. -/
def runSends (reqs : List SendReq) (st : Sys) : Sys :=
  match reqs with
  | [] => st
  | r :: rest => runSends rest (sendStep st r).1

/-! ## Interleaved store access (server.js:32-118, 406-424)

The `message` handler's store transaction is `await db.read()`, a
synchronous find/push on the shared `db.data`, then `await db.write()`.
`db.read()` replaces the shared `db.data` with a fresh parse of the file,
and `db.write()` suspends on `await this._ensureDir()` *before* it
serializes `this.data`, so between a handler's in-memory push and its
serialization another handler's `read` can complete and replace
`db.data`.  We model the shared state as the file content plus the
current `db.data`, and one send as three atomic steps (read, in-memory
apply, write) between which steps of other handlers may interleave. -/

/-- Shared mutable state: the persisted file snapshot and the shared
in-memory `db.data` object. -/
structure StoreState where
  fileDb : DB
  memDb : DB
deriving DecidableEq, Repr

/-- One atomic step of a `message` handler's store transaction. -/
inductive SendPhase where
  /-- `await db.read()`: `db.data` := parse of the file. -/
  | readPhase
  /-- The synchronous find/authorize/push on the current `db.data`. -/
  | applyPhase (r : SendReq)
  /-- The serialization and atomic rename in `db.write()`:
  file := current `db.data`. -/
  | writePhase
deriving DecidableEq, Repr

/-- Execute one step against the shared state, returning the handler
result when the step is the apply phase. -/
def execPhase (st : StoreState) : SendPhase → StoreState × Option SendResult
  | .readPhase => ({ st with memDb := st.fileDb }, none)
  | .applyPhase r =>
    let step := sendMessage st.memDb r.sender r.orderId r.text r.newId r.now
    ({ st with memDb := step.1 }, some step.2)
  | .writePhase => ({ st with fileDb := st.memDb }, none)

/-- Execute a schedule (an interleaving of handler steps), collecting the
apply-phase results in order. -/
def execSchedule (st : StoreState) : List SendPhase → StoreState × List SendResult
  | [] => (st, [])
  | p :: rest =>
    let step := execPhase st p
    let next := execSchedule step.1 rest
    (next.1, (match step.2 with | some r => [r] | none => []) ++ next.2)

/-- A whitespace character in the sense of "whitespace-only text". -/
def isWsChar (c : Char) : Bool := c == ' ' || c == '\t' || c == '\n' || c == '\r'

/-- `text` is empty or consists of whitespace characters only. -/
def wsOnly (s : String) : Bool := s.data.all isWsChar

/-! ## Shared helper lemmas -/

/-- The two access paths compute identical results: the handler bodies at
server.js:354-362 and server.js:393-404 are the same code. -/
theorem history_eq_join (db : DB) (orderId : JVal) (u : Principal) :
    historyFetch db orderId u = joinOrderAck db orderId u := rfl

/-- The `message` handler never touches the orders collection. -/
theorem sendMessage_orders (db : DB) (u : Principal) (oid : JVal)
    (text newId : String) (now : Nat) :
    (sendMessage db u oid text newId now).1.orders = db.orders := by
  unfold sendMessage
  cases h : findOrder db oid with
  | none => rfl
  | some ord =>
    by_cases hb : (ord.user_id == some u.id || u.is_admin) = true <;> simp [hb]

/-- On a found order and an authorized sender, the `message` handler
appends exactly the constructed message and acknowledges it. -/
theorem sendMessage_ok (db : DB) (u : Principal) (oid : JVal)
    (text newId : String) (now : Nat) (ord : Order)
    (h1 : findOrder db oid = some ord)
    (h2 : ord.user_id = some u.id ∨ u.is_admin = true) :
    sendMessage db u oid text newId now =
      ({ db with messages := db.messages ++ [mkMessage ⟨u, oid, text, newId, now⟩] },
        SendResult.ok (mkMessage ⟨u, oid, text, newId, now⟩)) := by
  have hb : (ord.user_id == some u.id || u.is_admin) = true := by
    rcases h2 with h | h <;> simp [h]
  unfold sendMessage
  rw [h1]
  simp only [hb, if_true]
  rfl

/-- Inserting an element no later than every list element puts it in
front. -/
theorem insertByTime_of_le (x : Message) (l : List Message)
    (h : ∀ y ∈ l, x.created_at ≤ y.created_at) : insertByTime x l = x :: l := by
  cases l with
  | nil => rfl
  | cons y ys =>
    unfold insertByTime
    rw [if_pos (h y (List.mem_cons_self y ys))]

/-- The stable sort leaves a list already non-decreasing in `created_at`
unchanged: such a list is exactly "sorted by `createdAt` ascending with
ties in insertion order". -/
theorem sortByTime_of_pairwise (l : List Message)
    (h : l.Pairwise (fun a b => a.created_at ≤ b.created_at)) :
    sortByTime l = l := by
  induction l with
  | nil => rfl
  | cons x xs ih =>
    rcases List.pairwise_cons.mp h with ⟨hx, hxs⟩
    unfold sortByTime
    rw [ih hxs, insertByTime_of_le x xs hx]

/-! ## Claims -/

/-- C2: for every principal and order-id, the synchronous history-fetch
and the realtime joinOrder path return the same decision (and the same
history); when the order is found, access is allowed iff the principal is
admin or owns the order; when absent, both report not-found. -/
theorem authorization_symmetry (db : DB) (orderId : JVal) (u : Principal) :
    historyFetch db orderId u = joinOrderAck db orderId u
  ∧ (findOrder db orderId = none → historyFetch db orderId u = .orderNotFound)
  ∧ (∀ ord, findOrder db orderId = some ord →
      ((∃ msgs, historyFetch db orderId u = FetchResult.ok msgs) ↔
        (u.is_admin = true ∨ ord.user_id = some u.id))) := by
  refine ⟨history_eq_join db orderId u, ?_, ?_⟩
  · intro h
    unfold historyFetch
    rw [h]
  · intro ord h
    unfold historyFetch
    rw [h]
    by_cases hb : (ord.user_id == some u.id || u.is_admin) = true
    · simp only [hb, if_true]
      constructor
      · intro _
        rcases Bool.or_eq_true_iff.mp hb with hid | ha
        · exact Or.inr (beq_iff_eq.mp hid)
        · exact Or.inl ha
      · intro _
        exact ⟨_, rfl⟩
    · simp only [hb, if_false]
      constructor
      · rintro ⟨msgs, hmsgs⟩
        exact absurd hmsgs (by simp)
      · intro h2
        exfalso
        apply hb
        rcases h2 with ha | hid
        · simp [ha]
        · simp [hid]

/-- A concrete order owned by user 7 used by several witnesses. -/
def ordA : Order :=
  { id := .jstr "o1", stripe_session_id := some "cs_1", user_id := some 7
    user_email := some "seven@example.com", amount_total := some 7999
    currency := some "usd", status := "paid", created_at := 0 }

/-- A snapshot holding only `ordA` and no messages. -/
def dbA : DB := { orders := [ordA], messages := [] }

/-- The (non-admin) owner of `ordA`. -/
def u7 : Principal := { id := 7, is_admin := false }

/-- Witness for C2: on the concrete snapshot `dbA`, both paths agree and
the owner of the order is allowed. -/
theorem authorization_symmetry_witness :
    historyFetch dbA (JVal.jstr "o1") u7 = joinOrderAck dbA (JVal.jstr "o1") u7
  ∧ (∃ msgs, historyFetch dbA (JVal.jstr "o1") u7 = FetchResult.ok msgs) := by
  have h := authorization_symmetry dbA (JVal.jstr "o1") u7
  exact ⟨h.1, (h.2.2 ordA (by decide)).mpr (Or.inr rfl)⟩

/-- C9: on a concrete store whose order has the string id `"5"`, a
message sent with the number id `5` is persisted (the loose lookup finds
the order), yet a later join or history-fetch with the string id `"5"`
finds the order and returns an empty history: the strict filter
`m.order_id === orderId` omits the loosely-matching message. -/
theorem loose_find_strict_filter_mismatch :
    (sendMessage { orders := [{ ordA with id := .jstr "5" }], messages := [] }
        u7 (JVal.jnum 5) "hi" "m1" 10).2 =
      SendResult.ok { id := "m1", order_id := .jnum 5, sender_id := 7
                      sender_role := "user", text := "hi", created_at := 10 }
  ∧ (sendMessage { orders := [{ ordA with id := .jstr "5" }], messages := [] }
        u7 (JVal.jnum 5) "hi" "m1" 10).1.messages =
      [{ id := "m1", order_id := .jnum 5, sender_id := 7
         sender_role := "user", text := "hi", created_at := 10 }]
  ∧ jsToString (JVal.jnum 5) = jsToString (JVal.jstr "5")
  ∧ joinOrderAck (sendMessage { orders := [{ ordA with id := .jstr "5" }], messages := [] }
        u7 (JVal.jnum 5) "hi" "m1" 10).1 (JVal.jstr "5") u7 = FetchResult.ok []
  ∧ historyFetch (sendMessage { orders := [{ ordA with id := .jstr "5" }], messages := [] }
        u7 (JVal.jnum 5) "hi" "m1" 10).1 (JVal.jstr "5") u7 = FetchResult.ok [] := by
  decide

/-- Counterexample to C3: an empty-text send by the authorized owner is
not rejected — it is acknowledged `ok` and the empty message is
persisted. -/
theorem empty_text_send_accepted :
    (sendMessage dbA u7 (JVal.jstr "o1") "" "m1" 5).2 =
      SendResult.ok { id := "m1", order_id := .jstr "o1", sender_id := 7
                      sender_role := "user", text := "", created_at := 5 }
  ∧ (sendMessage dbA u7 (JVal.jstr "o1") "" "m1" 5).1.messages =
      [{ id := "m1", order_id := .jstr "o1", sender_id := 7
         sender_role := "user", text := "", created_at := 5 }] := by
  decide

/-- C3 (amended): the `message` handler performs no text validation —
an empty or whitespace-only text from an authorized member is persisted
verbatim as a Message and acknowledged `ok`. -/
theorem whitespace_text_persisted (db : DB) (u : Principal) (oid : JVal)
    (text newId : String) (now : Nat) (ord : Order)
    (hws : wsOnly text = true)
    (h1 : findOrder db oid = some ord)
    (h2 : ord.user_id = some u.id ∨ u.is_admin = true) :
    (sendMessage db u oid text newId now).2 =
      SendResult.ok (mkMessage ⟨u, oid, text, newId, now⟩)
  ∧ (sendMessage db u oid text newId now).1.messages =
      db.messages ++ [mkMessage ⟨u, oid, text, newId, now⟩] := by
  rw [sendMessage_ok db u oid text newId now ord h1 h2]
  exact ⟨rfl, rfl⟩

/-- Witness for the amended C3: the concrete empty-text send on `dbA`. -/
theorem whitespace_text_persisted_witness :
    (sendMessage dbA u7 (JVal.jstr "o1") "" "m2" 6).2 =
      SendResult.ok (mkMessage ⟨u7, JVal.jstr "o1", "", "m2", 6⟩)
  ∧ (sendMessage dbA u7 (JVal.jstr "o1") "" "m2" 6).1.messages =
      dbA.messages ++ [mkMessage ⟨u7, JVal.jstr "o1", "", "m2", 6⟩] :=
  whitespace_text_persisted dbA u7 (JVal.jstr "o1") "" "m2" 6 ordA
    (by decide) (by decide) (Or.inl rfl)

/-- C4: once the webhook's verification/parsing stage succeeds, the
response is always the success acknowledgment — whether an order was
created, the event was a duplicate, or the kind was not a
checkout-completion kind; and non-completion kinds change no state and
emit no notification. -/
theorem webhook_ack_always (cfg : Config)
    (ce : String → String → String → Option Event)
    (pj : String → Option Event) (body sig : String)
    (db : DB) (newId : String) (now : Nat) (e : Event)
    (hs : cfg.stripeConfigured = true)
    (hp : parseStage cfg ce pj body sig = some e) :
    (handleWebhook cfg ce pj body sig db newId now).2.2 = .received
  ∧ (e.type ≠ "checkout.session.completed" →
      e.type ≠ "checkout.session.async_payment_succeeded" →
      handleWebhook cfg ce pj body sig db newId now = (db, none, .received)) := by
  unfold handleWebhook
  rw [hs, if_pos rfl, hp]
  constructor
  · rfl
  · intro h1 h2
    have hb : (e.type == "checkout.session.completed"
        || e.type == "checkout.session.async_payment_succeeded") = false := by
      simp [h1, h2]
    dsimp only
    simp [processEvent, hb]

/-- An event of a kind the webhook ignores, used by witnesses. -/
def evOther : Event :=
  { type := "payment_intent.created"
    session := { id := "cs_9", metadata_user_id := none, amount_total := none
                 currency := none, customer_details := none, customer_email := none } }

/-- Witness for C4: a concrete unsigned delivery of an ignored event kind
is acknowledged and changes nothing. -/
theorem webhook_ack_always_witness :
    (handleWebhook ⟨true, none⟩ (fun _ _ _ => none) (fun _ => some evOther)
        "body" "sig" dbA "id1" 3).2.2 = .received
  ∧ handleWebhook ⟨true, none⟩ (fun _ _ _ => none) (fun _ => some evOther)
      "body" "sig" dbA "id1" 3 = (dbA, none, .received) := by
  have h := webhook_ack_always ⟨true, none⟩ (fun _ _ _ => none)
    (fun _ => some evOther) "body" "sig" dbA "id1" 3 evOther rfl rfl
  exact ⟨h.1, h.2 (by decide) (by decide)⟩

/-- C7: with a configured webhook secret, a failed signature verification
is rejected with the webhook-error response and no state change; with no
secret configured, the handler trusts the raw body — its entire outcome
is the processing of `parseJson body`, independent of the signature and
of the verifier. -/
theorem webhook_signature_modes (cfg : Config)
    (ce : String → String → String → Option Event)
    (pj : String → Option Event) (body sig : String)
    (db : DB) (newId : String) (now : Nat)
    (hs : cfg.stripeConfigured = true) :
    (∀ secret, cfg.webhookSecret = some secret → ce body sig secret = none →
      handleWebhook cfg ce pj body sig db newId now = (db, none, .webhookError))
  ∧ (cfg.webhookSecret = none →
      handleWebhook cfg ce pj body sig db newId now =
        (match pj body with
         | none => (db, none, WebhookResponse.webhookError)
         | some e =>
           ((processEvent e db newId now).1, (processEvent e db newId now).2,
             WebhookResponse.received))) := by
  constructor
  · intro secret hsec hfail
    unfold handleWebhook parseStage
    rw [hs, if_pos rfl, hsec]
    dsimp only
    rw [hfail]
  · intro hnone
    unfold handleWebhook parseStage
    rw [hs, if_pos rfl, hnone]

/-- Witness for C7: both modes at concrete inputs — a configured secret
with a failing verifier is rejected without state change, and the
no-secret mode processes the parsed body. -/
theorem webhook_signature_modes_witness :
    handleWebhook ⟨true, some "whsec_1"⟩ (fun _ _ _ => none) (fun _ => some evOther)
      "body" "sig" dbA "id1" 3 = (dbA, none, .webhookError)
  ∧ handleWebhook ⟨true, none⟩ (fun _ _ _ => none) (fun _ => some evOther)
      "body" "sig" dbA "id1" 3 =
      ((processEvent evOther dbA "id1" 3).1, (processEvent evOther dbA "id1" 3).2,
        WebhookResponse.received) := by
  have h1 := webhook_signature_modes ⟨true, some "whsec_1"⟩ (fun _ _ _ => none)
    (fun _ => some evOther) "body" "sig" dbA "id1" 3 rfl
  have h2 := webhook_signature_modes ⟨true, none⟩ (fun _ _ _ => none)
    (fun _ => some evOther) "body" "sig" dbA "id1" 3 rfl
  exact ⟨h1.1 "whsec_1" rfl rfl, h2.2 rfl⟩

/-- C10: on a checkout-completion event with no prior order for the
session, the created order is the appended `mkOrder`, and each falsy
session field is independently persisted as null: an `amount_total` of 0
(or an absent one) is stored as null — not 0 — whatever the other fields
hold; likewise an empty-string (or absent) `currency`; and the customer
email is null when both email sources are absent, or when
`customer_details` is present with a null email. -/
theorem falsy_session_fields_stored_null (db : DB) (s : Session)
    (newId : String) (now : Nat)
    (hnone : db.orders.find? (fun o => o.stripe_session_id == some s.id) = none) :
    processEvent ⟨"checkout.session.completed", s⟩ db newId now =
      ({ db with orders := db.orders ++ [mkOrder s newId now] }, some (mkOrder s newId now))
  ∧ (s.amount_total = some 0 → (mkOrder s newId now).amount_total = none)
  ∧ (s.amount_total = none → (mkOrder s newId now).amount_total = none)
  ∧ (s.currency = some "" → (mkOrder s newId now).currency = none)
  ∧ (s.currency = none → (mkOrder s newId now).currency = none)
  ∧ (s.customer_details = none → s.customer_email = none →
      (mkOrder s newId now).user_email = none)
  ∧ (s.customer_details = some none → (mkOrder s newId now).user_email = none) := by
  refine ⟨?_, ?_, ?_, ?_, ?_, ?_, ?_⟩
  · unfold processEvent
    simp only [show (("checkout.session.completed" == "checkout.session.completed")
      || ("checkout.session.completed" == "checkout.session.async_payment_succeeded")) = true
      from rfl, if_true]
    rw [hnone]
  · intro h0
    unfold mkOrder extractAmountTotal
    rw [h0]
    rfl
  · intro h0
    unfold mkOrder extractAmountTotal
    rw [h0]
  · intro hc
    unfold mkOrder extractCurrency
    rw [hc]
    rfl
  · intro hc
    unfold mkOrder extractCurrency
    rw [hc]
  · intro hd he
    unfold mkOrder extractEmail
    rw [hd, he]
  · intro hd
    unfold mkOrder extractEmail
    rw [hd]

/-- A concrete session with a zero amount, an empty currency string and
no email information, used by the C10 witness. -/
def sessZ : Session :=
  { id := "cs_z", metadata_user_id := some "7", amount_total := some 0
    currency := some "", customer_details := none, customer_email := none }

/-- An empty snapshot. -/
def dbEmpty : DB := { orders := [], messages := [] }

/-- A concrete session whose only falsy field is the zero amount: the
currency and email are present and truthy. -/
def sessAmtZero : Session :=
  { id := "cs_a0", metadata_user_id := none, amount_total := some 0
    currency := some "usd", customer_details := some (some "x@y.example")
    customer_email := none }

/-- Witness for C10: a session whose only falsy field is `amount_total = 0`
stores null for the amount (the other fields need not be falsy), and the
all-falsy session `sessZ` stores null for currency and email too. -/
theorem falsy_session_fields_stored_null_witness :
    processEvent ⟨"checkout.session.completed", sessAmtZero⟩ dbEmpty "ida" 5 =
      ({ dbEmpty with orders := dbEmpty.orders ++ [mkOrder sessAmtZero "ida" 5] },
        some (mkOrder sessAmtZero "ida" 5))
  ∧ (mkOrder sessAmtZero "ida" 5).amount_total = none
  ∧ (mkOrder sessZ "idz" 4).amount_total = none
  ∧ (mkOrder sessZ "idz" 4).currency = none
  ∧ (mkOrder sessZ "idz" 4).user_email = none := by
  have h1 := falsy_session_fields_stored_null dbEmpty sessAmtZero "ida" 5 rfl
  have h2 := falsy_session_fields_stored_null dbEmpty sessZ "idz" 4 rfl
  exact ⟨h1.1, h1.2.1 rfl, h2.2.1 rfl, h2.2.2.2.1 rfl, h2.2.2.2.2.2.1 rfl rfl⟩

/-- When some order already carries the event's session id (or the event
kind is ignored), a delivery changes nothing and emits no notification. -/
theorem processEvent_noop (e : Event) (db : DB) (newId : String) (now : Nat)
    (h : db.orders.find? (fun o => o.stripe_session_id == some e.session.id) ≠ none) :
    processEvent e db newId now = (db, none) := by
  unfold processEvent
  by_cases hk : (e.type == "checkout.session.completed"
      || e.type == "checkout.session.async_payment_succeeded") = true
  · rw [if_pos hk]
    cases hf : db.orders.find? (fun o => o.stripe_session_id == some e.session.id) with
    | none => exact absurd hf h
    | some o => rfl
  · rw [if_neg hk]

/-- Redelivering any number of times against a snapshot that already has
an order for the session id is a complete no-op. -/
theorem deliverAll_noop (e : Event) (sups : List (String × Nat)) (db : DB)
    (h : db.orders.find? (fun o => o.stripe_session_id == some e.session.id) ≠ none) :
    deliverAll e sups db = (db, []) := by
  induction sups with
  | nil => rfl
  | cons sup rest ih =>
    unfold deliverAll deliver
    rw [processEvent_noop e db sup.1 sup.2 h]
    dsimp only
    rw [ih]
    rfl

/-- C1: delivering the same checkout-completion event N ≥ 1 times into a
store with no order for its session id leaves exactly one order with that
session id, and the admin notification is emitted exactly once (on the
creating delivery; later deliveries emit none). -/
theorem webhook_idempotent (e : Event) (db : DB) (sups : List (String × Nat))
    (hkind : e.type = "checkout.session.completed"
      ∨ e.type = "checkout.session.async_payment_succeeded")
    (h0 : ordersFor db e.session.id = [])
    (hne : sups ≠ []) :
    (ordersFor (deliverAll e sups db).1 e.session.id).length = 1
  ∧ (deliverAll e sups db).2.length = 1 := by
  match sups, hne with
  | sup :: rest, _ =>
    have hfind : db.orders.find? (fun o => o.stripe_session_id == some e.session.id) = none := by
      rw [List.find?_eq_none]
      exact List.filter_eq_nil_iff.mp h0
    have hk : (e.type == "checkout.session.completed"
        || e.type == "checkout.session.async_payment_succeeded") = true := by
      rcases hkind with h | h <;> simp [h]
    have hstep : deliver e db sup =
        ({ db with orders := db.orders ++ [mkOrder e.session sup.1 sup.2] },
          some (mkOrder e.session sup.1 sup.2)) := by
      unfold deliver processEvent
      rw [if_pos hk, hfind]
    have hsid : (mkOrder e.session sup.1 sup.2).stripe_session_id = some e.session.id := rfl
    have h1 : ordersFor { db with orders := db.orders ++ [mkOrder e.session sup.1 sup.2] }
        e.session.id = [mkOrder e.session sup.1 sup.2] := by
      unfold ordersFor at h0 ⊢
      dsimp only
      rw [List.filter_append, h0]
      simp [hsid]
    have hfind1 : ({ db with orders := db.orders ++ [mkOrder e.session sup.1 sup.2] } : DB).orders.find?
        (fun o => o.stripe_session_id == some e.session.id) ≠ none := by
      intro hn
      have := List.find?_eq_none.mp hn (mkOrder e.session sup.1 sup.2) (by simp)
      simp [hsid] at this
    have hrest := deliverAll_noop e rest _ hfind1
    unfold deliverAll
    rw [hstep]
    dsimp only
    rw [hrest]
    refine ⟨?_, rfl⟩
    dsimp only
    rw [h1]
    rfl

/-- The checkout-completion event of the spec's concrete scenario 1. -/
def evPaid : Event :=
  { type := "checkout.session.completed"
    session := { id := "cs_123", metadata_user_id := some "7"
                 amount_total := some 7999, currency := some "usd"
                 customer_details := none, customer_email := none } }

/-- Witness for C1: delivering `evPaid` twice into the empty store leaves
one order for `cs_123` and one emitted notification. -/
theorem webhook_idempotent_witness :
    (ordersFor (deliverAll evPaid [("id1", 1), ("id2", 2)] dbEmpty).1 "cs_123").length = 1
  ∧ (deliverAll evPaid [("id1", 1), ("id2", 2)] dbEmpty).2.length = 1 :=
  webhook_idempotent evPaid dbEmpty [("id1", 1), ("id2", 2)]
    (Or.inl rfl) (by decide) (by decide)

/-- C5: the webhook only ever appends to the orders collection — every
pre-existing order record (all of its fields, `status` included) is
preserved unchanged and never deleted; per-session uniqueness is
preserved; and the message handler never touches orders at all.  Since
appending is the only write to orders in the core, a `paid` status is
never reverted and no field of an existing order is ever mutated. -/
theorem order_store_invariants (e : Event) (db : DB) (newId : String) (now : Nat) :
    (∃ tail, (processEvent e db newId now).1.orders = db.orders ++ tail)
  ∧ (∀ sid, (ordersFor db sid).length ≤ 1 →
      (ordersFor (processEvent e db newId now).1 sid).length ≤ 1)
  ∧ (∀ u oid text mid mnow,
      (sendMessage db u oid text mid mnow).1.orders = db.orders) := by
  refine ⟨?_, ?_, fun u oid text mid mnow => sendMessage_orders db u oid text mid mnow⟩
  · unfold processEvent
    by_cases hk : (e.type == "checkout.session.completed"
        || e.type == "checkout.session.async_payment_succeeded") = true
    · rw [if_pos hk]
      cases hf : db.orders.find? (fun o => o.stripe_session_id == some e.session.id) with
      | none => exact ⟨[mkOrder e.session newId now], rfl⟩
      | some o => exact ⟨[], (List.append_nil db.orders).symm⟩
    · rw [if_neg hk]
      exact ⟨[], (List.append_nil db.orders).symm⟩
  · intro sid hle
    unfold processEvent
    by_cases hk : (e.type == "checkout.session.completed"
        || e.type == "checkout.session.async_payment_succeeded") = true
    · rw [if_pos hk]
      cases hf : db.orders.find? (fun o => o.stripe_session_id == some e.session.id) with
      | none =>
        dsimp only
        unfold ordersFor at hle ⊢
        dsimp only
        rw [List.filter_append, List.length_append]
        by_cases hsid : sid = e.session.id
        · subst hsid
          have hz : (db.orders.filter
              (fun o => o.stripe_session_id == some e.session.id)).length = 0 := by
            rw [List.length_eq_zero]
            rw [List.filter_eq_nil_iff]
            exact List.find?_eq_none.mp hf
          rw [hz]
          simp [mkOrder]
        · have hone : ((([mkOrder e.session newId now] : List Order)).filter
              (fun o => o.stripe_session_id == some sid)).length = 0 := by
            simp [mkOrder, hsid]
            intro hcontra
            exact absurd hcontra.symm hsid
          rw [hone]
          simpa using hle
      | some o => exact hle
    · rw [if_neg hk]
      exact hle

/-- Witness for C5: the concrete paid-event delivery into `dbA` keeps the
per-session uniqueness bound. -/
theorem order_store_invariants_witness :
    (∃ tail, (processEvent evPaid dbA "idw" 9).1.orders = dbA.orders ++ tail)
  ∧ (ordersFor (processEvent evPaid dbA "idw" 9).1 "cs_123").length ≤ 1 := by
  have h := order_store_invariants evPaid dbA "idw" 9
  exact ⟨h.1, h.2.1 "cs_123" (by decide)⟩

/-- Structural description of a run of authorized sends to one order:
the store gains exactly the sent messages, in send order; every member of
the order's room has exactly those messages appended to their stream, in
the same order; the orders collection is untouched. -/
theorem runSends_spec (oid : JVal) (ord : Order) (reqs : List SendReq) (st : Sys)
    (hord : findOrder st.db oid = some ord)
    (hreqs : ∀ r ∈ reqs, r.orderId = oid
      ∧ (ord.user_id = some r.sender.id ∨ r.sender.is_admin = true)) :
    (runSends reqs st).db.messages = st.db.messages ++ reqs.map mkMessage
  ∧ (runSends reqs st).db.orders = st.db.orders
  ∧ (runSends reqs st).members = st.members.map (fun mem =>
      if mem.room == roomName oid then
        { mem with inbox := mem.inbox ++ reqs.map mkMessage }
      else mem) := by
  induction reqs generalizing st with
  | nil =>
    refine ⟨by simp [runSends], rfl, ?_⟩
    simp only [runSends, List.map_nil, List.append_nil]
    symm
    refine (List.map_congr_left ?_).trans (List.map_id st.members)
    intro mem _
    by_cases hc : (mem.room == roomName oid) = true
    · rw [if_pos hc]
      rfl
    · rw [if_neg hc]
      rfl
  | cons r rest ih =>
    obtain ⟨hr1, hr2⟩ := hreqs r (List.mem_cons_self r rest)
    have hreqs' : ∀ x ∈ rest, x.orderId = oid
        ∧ (ord.user_id = some x.sender.id ∨ x.sender.is_admin = true) :=
      fun x hx => hreqs x (List.mem_cons_of_mem r hx)
    subst hr1
    have hsend : sendMessage st.db r.sender r.orderId r.text r.newId r.now =
        ({ st.db with messages := st.db.messages ++ [mkMessage r] },
          SendResult.ok (mkMessage r)) :=
      sendMessage_ok st.db r.sender r.orderId r.text r.newId r.now ord hord hr2
    have hstep : (sendStep st r).1 =
        { db := { st.db with messages := st.db.messages ++ [mkMessage r] }
          members := st.members.map (fun mem =>
            if mem.room == roomName r.orderId then
              { mem with inbox := mem.inbox ++ [mkMessage r] }
            else mem) } := by
      unfold sendStep
      rw [hsend]
    have hord' : findOrder (sendStep st r).1.db r.orderId = some ord := by
      rw [hstep]
      exact hord
    obtain ⟨ihm, iho, ihmem⟩ := ih (sendStep st r).1 hord' hreqs'
    refine ⟨?_, ?_, ?_⟩
    · show (runSends rest (sendStep st r).1).db.messages = _
      rw [ihm, hstep]
      simp
    · show (runSends rest (sendStep st r).1).db.orders = _
      rw [iho, hstep]
    · show (runSends rest (sendStep st r).1).members = _
      rw [ihmem, hstep]
      dsimp only
      rw [List.map_map]
      refine List.map_congr_left ?_
      intro mem _
      simp only [Function.comp]
      by_cases hc : (mem.room == roomName r.orderId) = true
      · simp [hc, List.append_assoc]
      · simp [hc]

/-- C6: for any sequence of authorized sends m1..mk into one order's
room, the store records them in send order, every connected member of
that room receives exactly them appended in that same (persist) order,
and for a late joiner (or the synchronous history-fetch) whose history's
timestamps are non-decreasing in store order — as produced by the
monotone clock — the returned history is exactly the persisted messages
of the order in insertion order, i.e. sorted by `createdAt` ascending
with ties broken by insertion order. -/
theorem realtime_ordering (st : Sys) (oid : JVal) (ord : Order) (reqs : List SendReq)
    (hord : findOrder st.db oid = some ord)
    (hreqs : ∀ r ∈ reqs, r.orderId = oid
      ∧ (ord.user_id = some r.sender.id ∨ r.sender.is_admin = true)) :
    (runSends reqs st).db.messages = st.db.messages ++ reqs.map mkMessage
  ∧ (runSends reqs st).members = st.members.map (fun mem =>
      if mem.room == roomName oid then
        { mem with inbox := mem.inbox ++ reqs.map mkMessage }
      else mem)
  ∧ (∀ u, (ord.user_id = some u.id ∨ u.is_admin = true) →
      ((runSends reqs st).db.messages.filter (fun m => m.order_id == oid)).Pairwise
        (fun a b => a.created_at ≤ b.created_at) →
      joinOrderAck (runSends reqs st).db oid u =
        FetchResult.ok ((runSends reqs st).db.messages.filter (fun m => m.order_id == oid))
      ∧ historyFetch (runSends reqs st).db oid u =
        FetchResult.ok ((runSends reqs st).db.messages.filter (fun m => m.order_id == oid))) := by
  obtain ⟨hmsg, hords, hmem⟩ := runSends_spec oid ord reqs st hord hreqs
  refine ⟨hmsg, hmem, ?_⟩
  intro u hu hpair
  have hord' : findOrder (runSends reqs st).db oid = some ord := by
    unfold findOrder at hord ⊢
    rw [hords]
    exact hord
  have hb : (ord.user_id == some u.id || u.is_admin) = true := by
    rcases hu with h | h <;> simp [h]
  have hj : joinOrderAck (runSends reqs st).db oid u =
      FetchResult.ok ((runSends reqs st).db.messages.filter (fun m => m.order_id == oid)) := by
    unfold joinOrderAck
    rw [hord']
    simp only [hb, if_true]
    exact congrArg FetchResult.ok (sortByTime_of_pairwise _ hpair)
  exact ⟨hj, (history_eq_join (runSends reqs st).db oid u).trans hj⟩

/-- An admin principal used by witnesses. -/
def uAdmin : Principal := { id := 1, is_admin := true }

/-- A realtime state for the C6 witness: the owner and an admin are both
in `ordA`'s room with empty streams. -/
def stW : Sys :=
  { db := dbA
    members := [{ user := u7, room := "order:o1", inbox := [] },
                { user := uAdmin, room := "order:o1", inbox := [] }] }

/-- First witness send: the owner asks a question at time 1. -/
def reqOne : SendReq :=
  { sender := u7, orderId := .jstr "o1", text := "Where is my package?"
    newId := "m1", now := 1 }

/-- Second witness send: the admin answers at time 2. -/
def reqTwo : SendReq :=
  { sender := uAdmin, orderId := .jstr "o1", text := "On its way", newId := "m2", now := 2 }

/-- Witness for C6: the two concrete sends land in the store in order and
a join by the owner returns exactly the persisted history in insertion
order. -/
theorem realtime_ordering_witness :
    (runSends [reqOne, reqTwo] stW).db.messages =
      stW.db.messages ++ [reqOne, reqTwo].map mkMessage
  ∧ joinOrderAck (runSends [reqOne, reqTwo] stW).db (JVal.jstr "o1") u7 =
      FetchResult.ok ((runSends [reqOne, reqTwo] stW).db.messages.filter
        (fun m => m.order_id == JVal.jstr "o1")) := by
  have h := realtime_ordering stW (JVal.jstr "o1") ordA [reqOne, reqTwo]
    (by decide) (by decide)
  exact ⟨h.1, (h.2.2 u7 (Or.inl rfl) (by decide)).1⟩

/-- Connection A's send in the concurrent scenario. -/
def reqConA : SendReq :=
  { sender := u7, orderId := .jstr "o1", text := "A", newId := "mA", now := 1 }

/-- Connection B's send in the concurrent scenario. -/
def reqConB : SendReq :=
  { sender := uAdmin, orderId := .jstr "o1", text := "B", newId := "mB", now := 2 }

/-- A valid interleaving of the two handlers' steps (A: positions
0, 1, 3 — read, apply, write; B: positions 2, 4, 5 — read, apply,
write): B's `db.read()` completes between A's in-memory push and A's
serialization (possible because `db.write()` awaits `_ensureDir()`
before it serializes `this.data`), replacing the shared snapshot and
dropping A's not-yet-written message. -/
def lostSchedule : List SendPhase :=
  [.readPhase, .applyPhase reqConA, .readPhase, .writePhase,
   .applyPhase reqConB, .writePhase]

/-- C8 fails on the code: under the interleaving `lostSchedule` of two
concurrent sends to the same order, both sends are acknowledged `ok`,
yet the persisted file ends up holding only B's message — A's message is
lost to the stale read-modify-write. -/
theorem concurrent_send_lost_update :
    (execSchedule ⟨dbA, dbA⟩ lostSchedule).2 =
      [SendResult.ok (mkMessage reqConA), SendResult.ok (mkMessage reqConB)]
  ∧ (execSchedule ⟨dbA, dbA⟩ lostSchedule).1.fileDb.messages = [mkMessage reqConB]
  ∧ mkMessage reqConA ∉ (execSchedule ⟨dbA, dbA⟩ lostSchedule).1.fileDb.messages := by
  decide

end NoahjoShop
